import Mathlib

/-!
Verification of the resolution-and-streaming core of `Dashboard_music.py`.

The Python source is shallowly embedded: pure fragments become Lean
functions, the module-level mutable state (`stream_cache`, `SERVER_STATS`)
becomes explicit state passing, network collaborators (YouTube Music search,
yt-dlp, Cobalt instances, `urllib.parse.quote`, `get_video_info`) become
function/value parameters describing their observable responses, and
`time.time()` becomes an explicit `now : Int` argument (the source reads the
clock several times per request; the embedding uses a single instant, which
is the intended reading of the spec's timestamps).

Python strings are modelled as Lean `String`s; `str.lower` is modelled
character-wise on the ASCII range (`Char.toLower`, which is exactly
Python's behaviour for ASCII input) and `str.strip` strips the ASCII
whitespace characters recognised by Python.  The Python dict
`stream_cache` is modelled as an insertion-ordered association list with
the (dict-guaranteed) invariant that keys are pairwise distinct, stated as
a `Nodup` hypothesis where a theorem needs it.
-/

namespace DashboardMusic

/-! ## Constants from the source (`Dashboard_music.py`, lines 88-89) -/

def CACHE_DURATION : Int := 1800

def MAX_CACHE_SIZE : Nat := 100

/-! ## Python string primitives

`isPySpace` is the ASCII whitespace set of Python's `str.strip`:
space, tab, newline, carriage return, vertical tab, form feed. -/

def isPySpace (c : Char) : Bool :=
  c == ' ' || c == '\t' || c == '\n' || c == '\r' || c == '\x0b' || c == '\x0c'

/-- Remove leading Python whitespace. -/
def ltrim (l : List Char) : List Char := l.dropWhile isPySpace

/-- Remove trailing Python whitespace. -/
def rtrim (l : List Char) : List Char := (l.reverse.dropWhile isPySpace).reverse

/-- Character list model of Python `str.strip()`. -/
def stripChars (l : List Char) : List Char := rtrim (ltrim l)

/-- Character list model of Python `str.lower()` (ASCII range). -/
def lowerChars (l : List Char) : List Char := l.map Char.toLower

/-- Model of Python `s.strip()`. -/
def pyStrip (s : String) : String := ⟨stripChars s.data⟩

/-- Model of Python `s.lower()`. -/
def pyLower (s : String) : String := ⟨lowerChars s.data⟩

/-- The cache key of `get_direct_stream_url` (line 325):
`cache_key = query.strip().lower()`. -/
def cacheKey (query : String) : String := pyLower (pyStrip query)

/-! ## The stream cache (`stream_cache`, `cleanup_cache`, lines 87, 133-153)

A cache entry records its dict key, the stored timestamp and the resolved
URL: `stream_cache[key] = (cache_time, url)`. -/

structure CEntry where
  key : String
  time : Int
  url : String
deriving DecidableEq, Repr

/-- The comparison key of `sorted(stream_cache.items(), key=lambda x: x[1][0])`
(line 149): ascending creation time. -/
def entryLE (a b : CEntry) : Prop := a.time ≤ b.time

instance : DecidableRel entryLE := fun a b => inferInstanceAs (Decidable (a.time ≤ b.time))

instance : IsTotal CEntry entryLE := ⟨fun a b => Int.le_total a.time b.time⟩

instance : IsTrans CEntry entryLE := ⟨fun _ _ _ h1 h2 => le_trans h1 h2⟩

/-- The expiry pass of `cleanup_cache` (lines 136-143): delete every entry
with `current_time - cache_time > CACHE_DURATION`. -/
def sweep (now : Int) (c : List CEntry) : List CEntry :=
  c.filter fun e => !decide (now - e.time > CACHE_DURATION)

/-- The capacity pass of `cleanup_cache` (lines 148-153): when over
capacity, sort by creation time ascending and delete the first
`len - MAX_CACHE_SIZE` keys.  (Python's sort is stable; tie order among
equal timestamps is irrelevant to the stated properties, so any correct
sort models it.) -/
def enforceCapacity (c : List CEntry) : List CEntry :=
  if MAX_CACHE_SIZE < c.length then
    let sortedItems := List.insertionSort entryLE c
    let keysToRemove := (sortedItems.take (c.length - MAX_CACHE_SIZE)).map CEntry.key
    c.filter fun e => !decide (e.key ∈ keysToRemove)
  else c

/-- `cleanup_cache()` (lines 133-153): expiry sweep, then capacity
enforcement. -/
def cleanup_cache (now : Int) (c : List CEntry) : List CEntry :=
  enforceCapacity (sweep now c)

/-! ## Server statistics (`SERVER_STATS`, `update_stats`, lines 98-130)

`start_time` and `last_stream_time` are display-only timestamps and are not
modelled. -/

inductive ReqType where
  | stream
  | cache
deriving DecidableEq, Repr

structure Stats where
  total_requests : Nat
  successful_streams : Nat
  failed_streams : Nat
  cache_hits : Nat
  cache_misses : Nat
deriving DecidableEq, Repr

/-- `update_stats(request_type, success)` (lines 117-130). -/
def update_stats (t : ReqType) (success : Bool) (s : Stats) : Stats :=
  let s1 := { s with total_requests := s.total_requests + 1 }
  match t with
  | .stream =>
    if success then { s1 with successful_streams := s1.successful_streams + 1 }
    else { s1 with failed_streams := s1.failed_streams + 1 }
  | .cache =>
    if success then { s1 with cache_hits := s1.cache_hits + 1 }
    else { s1 with cache_misses := s1.cache_misses + 1 }

/-! ## Resolution (`get_direct_stream_url`, lines 321-361)

The three network collaborators are abstracted by their observable
results for the present call: `search_with_ytmusic` either finds a link or
not, `get_best_audio_url_ytdlp` either yields an audio URL or fails, and
the Cobalt fallback either yields an audio URL or fails. -/

structure ResolveEnv where
  searchResult : Option String
  ytdlpResult : Option String
  cobaltResult : Option String

/-- `stream_cache[cache_key] = (time.time(), audio_url)` (line 355):
Python dict assignment overwrites in place if the key exists, else
appends in insertion order. -/
def pyDictInsert (k : String) (t : Int) (u : String) (c : List CEntry) : List CEntry :=
  if c.any (fun e => e.key == k) then
    c.map fun e => if e.key == k then ⟨k, t, u⟩ else e
  else c ++ [⟨k, t, u⟩]

/-- Lines 338-346: the query is used as the link when it starts with a
URL scheme, otherwise the search collaborator's finding (or `None`). -/
def classifyLink (env : ResolveEnv) (query : String) : Option String :=
  if query.startsWith "http://" || query.startsWith "https://" then some query
  else env.searchResult

/-- Lines 348-352: try yt-dlp first, then the Cobalt fallback. -/
def tryExtract (env : ResolveEnv) : Option String :=
  match env.ytdlpResult with
  | some u => some u
  | none => env.cobaltResult

/-- The branch structure of the miss path on the outcomes of link
classification and extraction. -/
def resolveMissWith (linkOpt audioOpt : Option String) (now : Int) (ck : String)
    (c : List CEntry) (st : Stats) : Option String × List CEntry × Stats :=
  match linkOpt with
  | none => (none, c, update_stats .cache false st)
  | some _ =>
    match audioOpt with
    | some u => (some u, pyDictInsert ck now u c, st)
    | none => (none, c, update_stats .cache false st)

/-- The cache-miss path of `get_direct_stream_url` (lines 336-361):
classify the query as link or free text, search if needed, then try
yt-dlp and fall back to Cobalt; insert into the cache on success, count a
miss on failure. -/
def resolveMiss (env : ResolveEnv) (now : Int) (query ck : String)
    (c : List CEntry) (st : Stats) : Option String × List CEntry × Stats :=
  resolveMissWith (classifyLink env query) (tryExtract env) now ck c st

/-- `get_direct_stream_url(query)` (lines 321-361): cleanup, cache lookup
with TTL check (a stale entry found on lookup is deleted), then the miss
path.  Returns the resolved URL, the new cache and the new stats. -/
def get_direct_stream_url (env : ResolveEnv) (now : Int) (query : String)
    (c : List CEntry) (st : Stats) : Option String × List CEntry × Stats :=
  let c1 := cleanup_cache now c
  let ck := cacheKey query
  match c1.find? (fun e => e.key == ck) with
  | some e =>
    if now - e.time < CACHE_DURATION then (some e.url, c1, update_stats .cache true st)
    else resolveMiss env now query ck (c1.filter fun x => !(x.key == ck)) st
  | none => resolveMiss env now query ck c1 st

/-- Whether the call takes the live-cache-hit branch (lines 327-332). -/
def liveHit (now : Int) (query : String) (c : List CEntry) : Bool :=
  match (cleanup_cache now c).find? (fun e => e.key == cacheKey query) with
  | some e => decide (now - e.time < CACHE_DURATION)
  | none => false

/-! ## YouTube Music search (`search_with_ytmusic`, lines 156-192)

A search result exposes an optional `videoId` and `title`; each of the
two passes inspects only the first result. -/

structure SearchResult where
  videoId : Option String
  title : Option String
deriving DecidableEq, Repr

def ytWatchLink (vid : String) : String := "https://www.youtube.com/watch?v=" ++ vid

/-- One pass of `search_with_ytmusic`: if there is at least one result and
its `videoId` is truthy (present and non-empty), synthesize the watch
link (lines 165-175 and 178-185 are both this shape). -/
def first_result_link (results : List SearchResult) : Option String :=
  match results with
  | [] => none
  | r :: _ =>
    match r.videoId with
    | some vid => if vid == "" then none else some (ytWatchLink vid)
    | none => none

/-- The observable state of the YouTube Music collaborator for one call:
whether the API object was initialised, and the result lists of the
`songs`-filtered and `videos`-filtered searches.  Exceptions from the
search call (caught at line 190, returning `None`) behave like
`ytmusicOK = false` for the properties below. -/
structure YtEnv where
  ytmusicOK : Bool
  songs : List SearchResult
  videos : List SearchResult
deriving DecidableEq, Repr

/-- `search_with_ytmusic(query)` (lines 156-192). -/
def search_with_ytmusic (env : YtEnv) : Option String :=
  if !env.ytmusicOK then none
  else
    match first_result_link env.songs with
    | some link => some link
    | none =>
      match first_result_link env.videos with
      | some link => some link
      | none => none

/-! ## Cobalt fallback (`get_audio_stream_from_cobalt_fallback`, lines 252-318)

The response of one instance is either a transport failure (timeout,
connection error, other exception) or an HTTP response with a status code
and a JSON body of which the source reads the `status`, `url` and `audio`
fields. -/

structure CobaltData where
  status : Option String
  url : Option String
  audio : Option String
deriving DecidableEq, Repr

inductive CobaltResp where
  | timeout
  | connError
  | exc
  | ok (status_code : Nat) (data : CobaltData)
deriving DecidableEq, Repr

/-- The per-instance acceptance test (lines 286-315): status 200 and one
of the three recognised shapes (`status == "redirect"` with a `url`
field, a bare `url` field, or an `audio` field); anything else is a skip. -/
def cobaltAccept (r : CobaltResp) : Option String :=
  match r with
  | .timeout => none
  | .connError => none
  | .exc => none
  | .ok code data =>
    if code == 200 then
      let status := data.status.getD ""
      if status == "redirect" && data.url.isSome then data.url
      else if data.url.isSome then data.url
      else if data.audio.isSome then data.audio
      else none
    else none

/-- The instance loop (lines 274-318) over the (already shuffled) instance
list, represented by each instance's response in iteration order.
Returns the resolved URL (or `none` if every instance failed) together
with the number of instances actually contacted. -/
def get_audio_stream_from_cobalt_fallback : List CobaltResp → Option String × Nat
  | [] => (none, 0)
  | r :: rest =>
    match cobaltAccept r with
    | some u => (some u, 1)
    | none =>
      let res := get_audio_stream_from_cobalt_fallback rest
      (res.1, res.2 + 1)

/-! ## Streaming generators (`stream_music.generate` lines 1200-1257,
`esp32_stream.generate` lines 1383-1453)

The ffmpeg subprocess is modelled by the list of byte bursts it writes to
its stdout pipe, one burst per generator iteration; the process is alive
exactly while bursts remain, and bytes are `Nat`s.  Each iteration the
generator polls, then (if the process is alive) reads at most `chunkSize`
bytes from the pipe buffer.  On observing exit, the web generator breaks
immediately (line 1227-1229) while the ESP32 generator first reads and
yields whatever is still buffered (lines 1412-1417). -/

def genLoop (drainOnExit : Bool) (chunkSize : Nat) :
    List (List Nat) → List Nat → List Nat
  | [], buf => if drainOnExit then buf else []
  | p :: rest, buf =>
    let buf2 := buf ++ p
    buf2.take chunkSize ++ genLoop drainOnExit chunkSize rest (buf2.drop chunkSize)

/-- The byte sequence yielded by `stream_music.generate` (web profile:
8192-byte reads, no final drain on exit). -/
def stream_music_generate (prod : List (List Nat)) : List Nat :=
  genLoop false 8192 prod []

/-- The byte sequence yielded by `esp32_stream.generate` (constrained
profile: 4096-byte reads, final `process.stdout.read()` drain on exit). -/
def esp32_stream_generate (prod : List (List Nat)) : List Nat :=
  genLoop true 4096 prod []

/-! ## Song+singer endpoints (`stream_pcm` lines 1275-1335, `esp32_stream`
lines 1338-1361) -/

/-- The query composition of both endpoints (lines 1290-1292 and
1347-1349), applied to the already-stripped `song` and `singer`
parameters: `if singer and singer.lower() != "youtube"`. -/
def composeQuery (song singer : String) : String :=
  if singer ≠ "" ∧ pyLower singer ≠ "youtube" then song ++ " " ++ singer else song

structure PcmErrBody where
  error : String
  artist : String
  title : String
  audio_url : String
  lyric_url : String
deriving DecidableEq, Repr

structure PcmOkBody where
  artist : String
  title : String
  audio_url : String
  lyric_url : String
  error : String
  bitrate : Nat
  sample_rate : Nat
  channels : Nat
deriving DecidableEq, Repr

inductive PcmResp where
  | err (body : PcmErrBody) (status : Nat)
  | ok (body : PcmOkBody)
deriving DecidableEq, Repr

/-- `stream_pcm` (lines 1275-1335).  `resolve` abstracts
`get_direct_stream_url`, `videoInfo` abstracts `get_video_info` (where
`none` models the exception branch of lines 1311-1320, and `some (t, a)`
its title/artist), and `quote` abstracts `urllib.parse.quote`.  A `.ok`
body is returned with HTTP status 200. -/
def stream_pcm (song singer : String) (resolve : String → Option String)
    (videoInfo : String → Option (String × String)) (quote : String → String)
    (host : String) : PcmResp :=
  let song := pyStrip song
  let singer := pyStrip singer
  if song == "" then
    .err ⟨"Thiếu tham số song", "", "", "", ""⟩ 400
  else
    let query := composeQuery song singer
    match resolve query with
    | none =>
      .err ⟨"Không tìm thấy bài hát: " ++ query,
        if singer == "" then "" else singer, song, "", ""⟩ 404
    | some audio_url =>
      let ta : String × String :=
        match videoInfo audio_url with
        | some (t, a) => (t, if singer != "" && a == "Unknown" then singer else a)
        | none => (song, if singer == "" then "Unknown" else singer)
      let stream_url :=
        "http://" ++ host ++ "/esp32_stream?song=" ++ quote song ++ "&singer=" ++ quote singer
      .ok ⟨ta.2, ta.1, stream_url, "", "", 128, 44100, 2⟩

/-- The ffmpeg argument list of `stream_music` (web profile, lines
1183-1198). -/
def web_ffmpeg_cmd (audio_url : String) : List String :=
  ["ffmpeg", "-reconnect", "1", "-reconnect_streamed", "1",
   "-reconnect_delay_max", "5", "-i", audio_url, "-f", "mp3",
   "-acodec", "libmp3lame", "-ar", "44100", "-ac", "2", "-b:a", "192k",
   "-bufsize", "512k", "-max_delay", "500000", "-vn", "-"]

/-- The ffmpeg argument list of `esp32_stream` (constrained profile, lines
1364-1381). -/
def esp32_ffmpeg_cmd (audio_url : String) : List String :=
  ["ffmpeg", "-reconnect", "1", "-reconnect_streamed", "1",
   "-reconnect_delay_max", "5", "-i", audio_url, "-f", "mp3",
   "-acodec", "libmp3lame", "-ar", "24000", "-ac", "2", "-b:a", "80k",
   "-q:a", "7", "-bufsize", "160k", "-fflags", "+discardcorrupt",
   "-max_muxing_queue_size", "640", "-vn", "-"]

/-! # Theorems -/

/-! ## Character-level lemmas -/

theorem toNat_ofNat_valid {n : Nat} (h : n < 55296) : (Char.ofNat n).toNat = n := by
  have hv : n.isValidChar := Or.inl h
  rw [Char.ofNat, dif_pos hv]
  rfl

theorem toLower_of_upper {c : Char} (h65 : 65 ≤ c.toNat) (h90 : c.toNat ≤ 90) :
    (Char.toLower c).toNat = c.toNat + 32 := by
  rw [Char.toLower, if_pos ⟨h65, h90⟩]
  exact toNat_ofNat_valid (by omega)

theorem toLower_of_not_upper {c : Char} (h : ¬(65 ≤ c.toNat ∧ c.toNat ≤ 90)) :
    Char.toLower c = c := by
  rw [Char.toLower, if_neg h]

theorem toLower_toLower (c : Char) : Char.toLower (Char.toLower c) = Char.toLower c := by
  by_cases h : 65 ≤ c.toNat ∧ c.toNat ≤ 90
  · have h1 : (Char.toLower c).toNat = c.toNat + 32 := toLower_of_upper h.1 h.2
    exact toLower_of_not_upper (by omega)
  · rw [toLower_of_not_upper h]
    exact toLower_of_not_upper h

theorem isPySpace_iff (c : Char) :
    isPySpace c = true ↔
      c.toNat = 32 ∨ c.toNat = 9 ∨ c.toNat = 10 ∨ c.toNat = 13 ∨ c.toNat = 11 ∨
        c.toNat = 12 := by
  have hinj : ∀ d : Char, (c == d) = true ↔ c.toNat = d.toNat := by
    intro d
    constructor
    · intro h
      rw [show c = d from beq_iff_eq.mp h]
    · intro h
      have : c = d := Char.ext (UInt32.toNat.inj h)
      simp [this]
  simp only [isPySpace, Bool.or_eq_true]
  rw [hinj ' ', hinj '\t', hinj '\n', hinj '\r', hinj '\x0b', hinj '\x0c']
  simp only [show (' ').toNat = 32 from rfl, show ('\t').toNat = 9 from rfl,
    show ('\n').toNat = 10 from rfl, show ('\x0d').toNat = 13 from rfl,
    show ('\x0b').toNat = 11 from rfl, show ('\x0c').toNat = 12 from rfl]
  tauto

theorem isPySpace_toLower (c : Char) : isPySpace (Char.toLower c) = isPySpace c := by
  by_cases h : 65 ≤ c.toNat ∧ c.toNat ≤ 90
  · have h1 : (Char.toLower c).toNat = c.toNat + 32 := toLower_of_upper h.1 h.2
    have hl : isPySpace (Char.toLower c) = false := by
      rw [← Bool.not_eq_true]
      rw [isPySpace_iff]
      omega
    have hr : isPySpace c = false := by
      rw [← Bool.not_eq_true]
      rw [isPySpace_iff]
      omega
    rw [hl, hr]
  · rw [toLower_of_not_upper h]

/-! ## List-level normalization lemmas -/

theorem dropWhile_append_singleton {p : Char → Bool} {a : Char} (h : p a = false)
    (xs : List Char) : (xs ++ [a]).dropWhile p = xs.dropWhile p ++ [a] := by
  induction xs with
  | nil => simp [List.dropWhile, h]
  | cons x xs ih =>
    by_cases hx : p x
    · simp [List.dropWhile_cons_of_pos hx, ih]
    · simp [List.dropWhile_cons_of_neg hx]

theorem ltrim_cases (l : List Char) :
    ltrim l = [] ∨ ∃ a t, ltrim l = a :: t ∧ isPySpace a = false := by
  induction l with
  | nil => exact Or.inl rfl
  | cons x xs ih =>
    by_cases hx : isPySpace x
    · rw [ltrim, List.dropWhile_cons_of_pos hx]
      exact ih
    · exact Or.inr ⟨x, xs, by rw [ltrim, List.dropWhile_cons_of_neg (by simp [hx])], by
        simpa using hx⟩

theorem ltrim_cons_of_neg {a : Char} (h : isPySpace a = false) (t : List Char) :
    ltrim (a :: t) = a :: t := by
  rw [ltrim, List.dropWhile_cons_of_neg (by simp [h])]

theorem ltrim_idem (l : List Char) : ltrim (ltrim l) = ltrim l := by
  rcases ltrim_cases l with h | ⟨a, t, h, ha⟩
  · rw [h]; rfl
  · rw [h, ltrim_cons_of_neg ha]

theorem rtrim_idem (l : List Char) : rtrim (rtrim l) = rtrim l := by
  have : ∀ m : List Char, rtrim m = (ltrim m.reverse).reverse := fun m => rfl
  rw [this, this, List.reverse_reverse, ltrim_idem]

theorem rtrim_cons_of_neg {a : Char} (h : isPySpace a = false) (t : List Char) :
    rtrim (a :: t) = a :: rtrim t := by
  show ((a :: t).reverse.dropWhile isPySpace).reverse
      = a :: (t.reverse.dropWhile isPySpace).reverse
  rw [List.reverse_cons, dropWhile_append_singleton h, List.reverse_append]
  rfl

theorem stripChars_idem (l : List Char) : stripChars (stripChars l) = stripChars l := by
  show rtrim (ltrim (rtrim (ltrim l))) = rtrim (ltrim l)
  rcases ltrim_cases l with h | ⟨a, t, h, ha⟩
  · rw [h]
    rfl
  · rw [h, rtrim_cons_of_neg ha t, ltrim_cons_of_neg ha, rtrim_cons_of_neg ha, rtrim_idem]

theorem dropWhile_map (f : Char → Char) (p : Char → Bool) (hp : ∀ a, p (f a) = p a)
    (l : List Char) : (l.map f).dropWhile p = (l.dropWhile p).map f := by
  induction l with
  | nil => rfl
  | cons x xs ih =>
    by_cases hx : p x
    · rw [List.map_cons, List.dropWhile_cons_of_pos (by rw [hp]; exact hx),
        List.dropWhile_cons_of_pos hx]
      exact ih
    · rw [List.map_cons, List.dropWhile_cons_of_neg (by rw [hp]; exact hx),
        List.dropWhile_cons_of_neg hx, List.map_cons]

theorem ltrim_lowerChars (l : List Char) : ltrim (lowerChars l) = lowerChars (ltrim l) :=
  dropWhile_map Char.toLower isPySpace isPySpace_toLower l

theorem lowerChars_reverse (l : List Char) :
    lowerChars l.reverse = (lowerChars l).reverse := by
  simp [lowerChars, List.map_reverse]

theorem rtrim_lowerChars (l : List Char) : rtrim (lowerChars l) = lowerChars (rtrim l) := by
  show ((lowerChars l).reverse.dropWhile isPySpace).reverse
      = lowerChars (l.reverse.dropWhile isPySpace).reverse
  rw [← lowerChars_reverse]
  show ((l.reverse.map Char.toLower).dropWhile isPySpace).reverse
      = lowerChars (l.reverse.dropWhile isPySpace).reverse
  rw [dropWhile_map Char.toLower isPySpace isPySpace_toLower, lowerChars_reverse]
  rfl

theorem stripChars_lowerChars (l : List Char) :
    stripChars (lowerChars l) = lowerChars (stripChars l) := by
  show rtrim (ltrim (lowerChars l)) = lowerChars (rtrim (ltrim l))
  rw [ltrim_lowerChars, rtrim_lowerChars]

theorem lowerChars_idem (l : List Char) : lowerChars (lowerChars l) = lowerChars l := by
  simp only [lowerChars, List.map_map]
  exact List.map_congr_left fun c _ => toLower_toLower c

/-- C8: for every non-empty input string, normalization is idempotent:
the cache key computed from `s` equals the cache key computed from
`trim(lower(s))`, and applying the normalizer twice changes nothing. -/
theorem cacheKey_idempotent (s : String) (h : s ≠ "") :
    cacheKey s = cacheKey (pyStrip (pyLower s)) ∧ cacheKey (cacheKey s) = cacheKey s := by
  constructor
  · show (⟨lowerChars (stripChars s.data)⟩ : String)
        = ⟨lowerChars (stripChars (stripChars (lowerChars s.data)))⟩
    have e : lowerChars (stripChars (stripChars (lowerChars s.data)))
        = lowerChars (stripChars s.data) := by
      rw [stripChars_idem, stripChars_lowerChars, lowerChars_idem]
    rw [e]
  · show (⟨lowerChars (stripChars (lowerChars (stripChars s.data)))⟩ : String)
        = ⟨lowerChars (stripChars s.data)⟩
    have e : lowerChars (stripChars (lowerChars (stripChars s.data)))
        = lowerChars (stripChars s.data) := by
      rw [stripChars_lowerChars, lowerChars_idem, stripChars_idem]
    rw [e]

theorem cacheKey_idempotent_witness :
    ("  Shape Of YOU  " : String) ≠ "" ∧
      (cacheKey "  Shape Of YOU  " = cacheKey (pyStrip (pyLower "  Shape Of YOU  ")) ∧
        cacheKey (cacheKey "  Shape Of YOU  ") = cacheKey "  Shape Of YOU  ") :=
  ⟨by decide, cacheKey_idempotent "  Shape Of YOU  " (by decide)⟩

/-! ## Cache capacity enforcement (C1) -/

theorem filter_length_split {α : Type} (p : α → Bool) (c : List α) :
    (c.filter p).length + (c.filter fun e => !(p e)).length = c.length := by
  induction c with
  | nil => rfl
  | cons x xs ih =>
    by_cases hx : p x <;> simp [List.filter_cons, hx] <;> omega

theorem filter_keys_map (c : List CEntry) (p : String → Bool) :
    (c.filter fun e => p e.key).map CEntry.key = (c.map CEntry.key).filter p := by
  rw [List.filter_map]
  rfl

theorem length_filter_mem (c : List CEntry) (ks : List String)
    (hnd : (c.map CEntry.key).Nodup) (hks : ks.Nodup)
    (hsub : ∀ k ∈ ks, k ∈ c.map CEntry.key) :
    (c.filter fun e => decide (e.key ∈ ks)).length = ks.length := by
  have h1 : (c.filter fun e => decide (e.key ∈ ks)).length
      = ((c.map CEntry.key).filter fun k => decide (k ∈ ks)).length := by
    rw [← filter_keys_map c fun k => decide (k ∈ ks), List.length_map]
  have hperm : List.Perm ((c.map CEntry.key).filter fun k => decide (k ∈ ks)) ks := by
    refine (List.perm_ext_iff_of_nodup (List.Nodup.filter _ hnd) hks).mpr ?_
    intro a
    simp only [List.mem_filter, decide_eq_true_eq]
    exact ⟨fun h => h.2, fun h => ⟨hsub a h, h⟩⟩
  rw [h1, hperm.length_eq]

theorem enforceCapacity_gt (c : List CEntry) (hnd : (c.map CEntry.key).Nodup)
    (hlen : MAX_CACHE_SIZE < c.length) :
    (enforceCapacity c).length = MAX_CACHE_SIZE ∧
      ∀ e ∈ c, e ∉ enforceCapacity c → ∀ f ∈ enforceCapacity c, e.time ≤ f.time := by
  set n := c.length - MAX_CACHE_SIZE with hn
  set sorted := List.insertionSort entryLE c with hsorted
  set ks := (sorted.take n).map CEntry.key with hks
  have hec : enforceCapacity c = c.filter fun e => !decide (e.key ∈ ks) := by
    rw [enforceCapacity, if_pos hlen]
  have hperm : List.Perm sorted c := List.perm_insertionSort entryLE c
  have hkperm : List.Perm (sorted.map CEntry.key) (c.map CEntry.key) :=
    hperm.map CEntry.key
  have hsnd : (sorted.map CEntry.key).Nodup := hkperm.nodup_iff.mpr hnd
  have hsl : sorted.length = c.length := hperm.length_eq
  have hksnd : ks.Nodup := by
    rw [hks, List.map_take]
    exact List.Nodup.sublist (List.take_sublist n _) hsnd
  have hsub : ∀ k ∈ ks, k ∈ c.map CEntry.key := by
    intro k hk
    rw [hks] at hk
    obtain ⟨r, hr, rfl⟩ := List.mem_map.mp hk
    exact hkperm.subset (List.mem_map_of_mem CEntry.key (List.mem_of_mem_take hr))
  have hkslen : ks.length = n := by
    rw [hks, List.length_map, List.length_take, hsl]
    omega
  have hM : MAX_CACHE_SIZE = 100 := rfl
  have hsplit := filter_length_split (fun e => decide (e.key ∈ ks)) c
  have hcnt := length_filter_mem c ks hnd hksnd hsub
  constructor
  · rw [hec]
    omega
  · intro e he hne f hf
    rw [hec] at hne hf
    have he' : e.key ∈ ks := by
      by_contra hcon
      apply hne
      rw [List.mem_filter]
      exact ⟨he, by simp [hcon]⟩
    obtain ⟨r, hr, hrk⟩ := List.mem_map.mp (hks ▸ he')
    have hrc : r ∈ c := hperm.subset (List.mem_of_mem_take hr)
    have hre : r = e := List.inj_on_of_nodup_map hnd hrc he hrk
    have hetake : e ∈ sorted.take n := hre ▸ hr
    have hfc : f ∈ c := (List.mem_filter.mp hf).1
    have hfks : f.key ∉ ks := by
      have := (List.mem_filter.mp hf).2
      simpa using this
    have hfs : f ∈ sorted.take n ++ sorted.drop n := by
      rw [List.take_append_drop]
      exact hperm.mem_iff.mpr hfc
    have hfd : f ∈ sorted.drop n := by
      rcases List.mem_append.mp hfs with h | h
      · exact absurd (hks ▸ List.mem_map_of_mem CEntry.key h) hfks
      · exact h
    have hp : List.Pairwise entryLE (sorted.take n ++ sorted.drop n) := by
      rw [List.take_append_drop]
      exact List.sorted_insertionSort entryLE c
    exact (List.pairwise_append.mp hp).2.2 e hetake f hfd

theorem enforceCapacity_le (c : List CEntry) (hlen : ¬ MAX_CACHE_SIZE < c.length) :
    enforceCapacity c = c := by
  rw [enforceCapacity, if_neg hlen]

/-- C1: for every cache state and timestamp, after `cleanup_cache` the
entry count is at most the capacity (100); when the post-sweep count
exceeded the capacity, exactly the capacity remains; and every entry the
capacity pass removed is no newer (by creation time) than every entry it
kept — the evicted entries are exactly the oldest-created ones. -/
theorem cleanup_cache_capacity (now : Int) (c : List CEntry)
    (hnd : (c.map CEntry.key).Nodup) :
    (cleanup_cache now c).length ≤ MAX_CACHE_SIZE ∧
      (MAX_CACHE_SIZE < (sweep now c).length →
        (cleanup_cache now c).length = MAX_CACHE_SIZE) ∧
      ∀ e ∈ sweep now c, e ∉ cleanup_cache now c →
        ∀ f ∈ cleanup_cache now c, e.time ≤ f.time := by
  have hnds : ((sweep now c).map CEntry.key).Nodup :=
    List.Nodup.sublist (List.Sublist.map CEntry.key (List.filter_sublist c)) hnd
  have hcc : cleanup_cache now c = enforceCapacity (sweep now c) := rfl
  by_cases hlen : MAX_CACHE_SIZE < (sweep now c).length
  · obtain ⟨h1, h2⟩ := enforceCapacity_gt (sweep now c) hnds hlen
    rw [hcc]
    exact ⟨le_of_eq h1, fun _ => h1, h2⟩
  · have heq : cleanup_cache now c = sweep now c := by
      rw [hcc, enforceCapacity_le _ hlen]
    refine ⟨by rw [heq]; omega, fun hcon => absurd hcon hlen, ?_⟩
    intro e he hne f hf
    rw [heq] at hne
    exact absurd he hne

theorem cleanup_cache_capacity_witness :
    (([⟨"song a", 0, "http://u1"⟩, ⟨"song b", 5, "http://u2"⟩] : List CEntry).map
        CEntry.key).Nodup ∧
      ((cleanup_cache 10 [⟨"song a", 0, "http://u1"⟩, ⟨"song b", 5, "http://u2"⟩]).length
          ≤ MAX_CACHE_SIZE ∧
        (MAX_CACHE_SIZE < (sweep 10 [⟨"song a", 0, "http://u1"⟩,
              ⟨"song b", 5, "http://u2"⟩]).length →
          (cleanup_cache 10 [⟨"song a", 0, "http://u1"⟩,
              ⟨"song b", 5, "http://u2"⟩]).length = MAX_CACHE_SIZE) ∧
        ∀ e ∈ sweep 10 [⟨"song a", 0, "http://u1"⟩, ⟨"song b", 5, "http://u2"⟩],
          e ∉ cleanup_cache 10 [⟨"song a", 0, "http://u1"⟩, ⟨"song b", 5, "http://u2"⟩] →
            ∀ f ∈ cleanup_cache 10 [⟨"song a", 0, "http://u1"⟩,
                ⟨"song b", 5, "http://u2"⟩], e.time ≤ f.time) :=
  ⟨by decide, cleanup_cache_capacity 10 _ (by decide)⟩

/-! ## Cache lookup with TTL (C2) and the stats asymmetry (C9) -/

theorem get_direct_eq (env : ResolveEnv) (now : Int) (query : String)
    (c : List CEntry) (st : Stats) :
    get_direct_stream_url env now query c st =
      match (cleanup_cache now c).find? (fun e => e.key == cacheKey query) with
      | some e =>
        if now - e.time < CACHE_DURATION then
          (some e.url, cleanup_cache now c, update_stats .cache true st)
        else
          resolveMiss env now query (cacheKey query)
            ((cleanup_cache now c).filter fun x => !(x.key == cacheKey query)) st
      | none => resolveMiss env now query (cacheKey query) (cleanup_cache now c) st := rfl

theorem liveHit_eq (now : Int) (query : String) (c : List CEntry) :
    liveHit now query c =
      match (cleanup_cache now c).find? (fun e => e.key == cacheKey query) with
      | some e => decide (now - e.time < CACHE_DURATION)
      | none => false := rfl

theorem enforceCapacity_subset (c : List CEntry) : ∀ x ∈ enforceCapacity c, x ∈ c := by
  intro x hx
  rw [enforceCapacity] at hx
  split at hx
  · exact (List.filter_sublist c).subset hx
  · exact hx

theorem cleanup_subset (now : Int) (c : List CEntry) :
    ∀ x ∈ cleanup_cache now c, x ∈ c := by
  intro x hx
  exact (List.filter_sublist c).subset (enforceCapacity_subset (sweep now c) x hx)

theorem resolveMiss_cache (env : ResolveEnv) (now : Int) (query ck : String)
    (c : List CEntry) (st : Stats) :
    (resolveMiss env now query ck c st).2.1 = c ∨
      ∃ u, (resolveMiss env now query ck c st).2.1 = pyDictInsert ck now u c := by
  rw [resolveMiss]
  generalize classifyLink env query = cl
  generalize tryExtract env = au
  cases cl with
  | none => left; rfl
  | some l =>
    cases au with
    | none => left; rfl
    | some u => right; exact ⟨u, rfl⟩

theorem resolveMiss_stats (env : ResolveEnv) (now : Int) (query ck : String)
    (c : List CEntry) (st : Stats) :
    ((resolveMiss env now query ck c st).1.isSome = true ∧
        (resolveMiss env now query ck c st).2.2 = st) ∨
      ((resolveMiss env now query ck c st).1 = none ∧
        (resolveMiss env now query ck c st).2.2 = update_stats .cache false st) := by
  rw [resolveMiss]
  generalize classifyLink env query = cl
  generalize tryExtract env = au
  cases cl with
  | none => right; exact ⟨rfl, rfl⟩
  | some l =>
    cases au with
    | none => right; exact ⟨rfl, rfl⟩
    | some u => left; exact ⟨rfl, rfl⟩

/-- C2: a lookup for an entry whose age has reached the TTL behaves as a
cache miss (the call equals the miss path run on the cache with that key
removed) and the stale entry is physically gone from the resulting
cache. -/
theorem ttl_expired_lookup (env : ResolveEnv) (now : Int) (query : String)
    (c : List CEntry) (st : Stats) (e : CEntry)
    (hnd : (c.map CEntry.key).Nodup) (he : e ∈ c) (hk : e.key = cacheKey query)
    (hex : CACHE_DURATION ≤ now - e.time) :
    get_direct_stream_url env now query c st
        = resolveMiss env now query (cacheKey query)
            ((cleanup_cache now c).filter fun x => !(x.key == cacheKey query)) st ∧
      e ∉ (get_direct_stream_url env now query c st).2.1 := by
  have hD : CACHE_DURATION = 1800 := rfl
  have hmain : get_direct_stream_url env now query c st
      = resolveMiss env now query (cacheKey query)
          ((cleanup_cache now c).filter fun x => !(x.key == cacheKey query)) st := by
    rw [get_direct_eq]
    cases hfind : (cleanup_cache now c).find? (fun x => x.key == cacheKey query) with
    | none =>
      have hfe : ((cleanup_cache now c).filter fun x => !(x.key == cacheKey query))
          = cleanup_cache now c := by
        rw [List.filter_eq_self]
        intro a ha
        have := List.find?_eq_none.mp hfind a ha
        simpa using this
      rw [hfe]
    | some x =>
      have hpx := List.find?_some hfind
      have hxc : x ∈ c := cleanup_subset now c x (List.mem_of_find?_eq_some hfind)
      have hxe : x = e :=
        List.inj_on_of_nodup_map hnd hxc he (by rw [beq_iff_eq.mp hpx, hk])
      have hlt : ¬ (now - x.time < CACHE_DURATION) := by rw [hxe]; omega
      show (if now - x.time < CACHE_DURATION then
          (some x.url, cleanup_cache now c, update_stats ReqType.cache true st)
        else
          resolveMiss env now query (cacheKey query)
            ((cleanup_cache now c).filter fun y => !(y.key == cacheKey query)) st)
          = resolveMiss env now query (cacheKey query)
              ((cleanup_cache now c).filter fun y => !(y.key == cacheKey query)) st
      rw [if_neg hlt]
  refine ⟨hmain, ?_⟩
  rw [hmain]
  have hne2 : e ∉ (cleanup_cache now c).filter fun x => !(x.key == cacheKey query) := by
    intro hmem
    have := (List.mem_filter.mp hmem).2
    rw [hk] at this
    simp at this
  rcases resolveMiss_cache env now query (cacheKey query)
      ((cleanup_cache now c).filter fun x => !(x.key == cacheKey query)) st with
    hc | ⟨u, hc⟩
  · rw [hc]
    exact hne2
  · rw [hc, pyDictInsert]
    have hany : (((cleanup_cache now c).filter fun x => !(x.key == cacheKey query)).any
        fun x => x.key == cacheKey query) = false := by
      rw [List.any_eq_false]
      intro a ha
      have := (List.mem_filter.mp ha).2
      simpa using this
    rw [if_neg (by simp [hany])]
    intro hmem
    rcases List.mem_append.mp hmem with h | h
    · exact hne2 h
    · have : e = ⟨cacheKey query, now, u⟩ := by simpa using h
      have ht : e.time = now := by rw [this]
      omega

theorem ttl_expired_lookup_witness :
    ((([⟨"shape of you", 0, "http://u"⟩] : List CEntry).map CEntry.key).Nodup ∧
        (⟨"shape of you", 0, "http://u"⟩ : CEntry) ∈
          ([⟨"shape of you", 0, "http://u"⟩] : List CEntry) ∧
        (⟨"shape of you", 0, "http://u"⟩ : CEntry).key = cacheKey " Shape of You " ∧
        CACHE_DURATION ≤ (1800 : Int) - (⟨"shape of you", 0, "http://u"⟩ : CEntry).time) ∧
      (get_direct_stream_url ⟨some "l", some "a", none⟩ 1800 " Shape of You "
            [⟨"shape of you", 0, "http://u"⟩] ⟨0, 0, 0, 0, 0⟩
          = resolveMiss ⟨some "l", some "a", none⟩ 1800 " Shape of You "
              (cacheKey " Shape of You ")
              ((cleanup_cache 1800 [⟨"shape of you", 0, "http://u"⟩]).filter
                fun x => !(x.key == cacheKey " Shape of You ")) ⟨0, 0, 0, 0, 0⟩ ∧
        (⟨"shape of you", 0, "http://u"⟩ : CEntry) ∉
          (get_direct_stream_url ⟨some "l", some "a", none⟩ 1800 " Shape of You "
            [⟨"shape of you", 0, "http://u"⟩] ⟨0, 0, 0, 0, 0⟩).2.1) :=
  ⟨⟨by decide, by decide, by decide, by decide⟩,
    ttl_expired_lookup ⟨some "l", some "a", none⟩ 1800 " Shape of You "
      [⟨"shape of you", 0, "http://u"⟩] ⟨0, 0, 0, 0, 0⟩ ⟨"shape of you", 0, "http://u"⟩
      (by decide) (by decide) (by decide) (by decide)⟩

/-- C9: the cache counters are asymmetric — the final stats equal the
input stats updated by a hit exactly on the live-hit branch, updated by a
miss exactly when resolution returns nothing, and left untouched on a
miss that resolves successfully; hence `cache_hits` is incremented exactly
on a live cache hit and `cache_misses` exactly on a failed resolution. -/
theorem cache_stats_asymmetry (env : ResolveEnv) (now : Int) (query : String)
    (c : List CEntry) (st : Stats) :
    (get_direct_stream_url env now query c st).2.2
        = (if liveHit now query c then update_stats .cache true st
           else if (get_direct_stream_url env now query c st).1.isSome then st
           else update_stats .cache false st) ∧
      (get_direct_stream_url env now query c st).2.2.cache_hits
        = st.cache_hits + (if liveHit now query c then 1 else 0) ∧
      (get_direct_stream_url env now query c st).2.2.cache_misses
        = st.cache_misses
            + (if (get_direct_stream_url env now query c st).1.isSome then 0 else 1) := by
  rw [get_direct_eq, liveHit_eq]
  cases hfind : (cleanup_cache now c).find? (fun x => x.key == cacheKey query) with
  | none =>
    rcases resolveMiss_stats env now query (cacheKey query) (cleanup_cache now c) st with
      ⟨h1, h2⟩ | ⟨h1, h2⟩
    · simp [h1, h2]
    · simp [h1, h2, update_stats]
  | some x =>
    by_cases hlt : now - x.time < CACHE_DURATION
    · simp [hlt, update_stats]
    · rcases resolveMiss_stats env now query (cacheKey query)
          ((cleanup_cache now c).filter fun y => !(y.key == cacheKey query)) st with
        ⟨h1, h2⟩ | ⟨h1, h2⟩
      · simp [hlt, h1, h2]
      · simp [hlt, h1, h2, update_stats]

/-! ## Generator drain behaviour (C3) -/

theorem genLoop_drain (chunk : Nat) (prod : List (List Nat)) :
    ∀ buf, genLoop true chunk prod buf = buf ++ prod.flatten := by
  induction prod with
  | nil => intro buf; simp [genLoop]
  | cons p rest ih =>
    intro buf
    rw [genLoop, ih, List.flatten_cons, ← List.append_assoc, List.take_append_drop,
      List.append_assoc]

theorem genLoop_nodrain_prefix (chunk : Nat) (prod : List (List Nat)) :
    ∀ buf, ∃ rest, genLoop false chunk prod buf ++ rest = buf ++ prod.flatten := by
  induction prod with
  | nil => intro buf; exact ⟨buf, by simp [genLoop]⟩
  | cons p r ih =>
    intro buf
    obtain ⟨rest, hrest⟩ := ih ((buf ++ p).drop chunk)
    refine ⟨rest, ?_⟩
    rw [genLoop, List.append_assoc, hrest, ← List.append_assoc, List.take_append_drop,
      List.flatten_cons, List.append_assoc]

/-- C3 counterexample: a subprocess whose single burst exceeds the web
profile's 8192-byte read leaves bytes buffered when the generator's poll
observes exit; the ESP32 generator yields all 8193 produced bytes, the web
generator does not (it drops the final buffered byte). -/
theorem stream_generate_drain_counterexample :
    esp32_stream_generate [List.replicate 8193 0]
        = ([List.replicate 8193 (0 : Nat)] : List (List Nat)).flatten ∧
      stream_music_generate [List.replicate 8193 0]
        ≠ ([List.replicate 8193 (0 : Nat)] : List (List Nat)).flatten := by
  have hflat : ([List.replicate 8193 (0 : Nat)] : List (List Nat)).flatten
      = List.replicate 8193 0 := by
    rw [List.flatten_cons]
    rw [show (([] : List (List Nat)).flatten) = [] from rfl, List.append_nil]
  constructor
  · show genLoop true 4096 [List.replicate 8193 0] [] = _
    rw [genLoop_drain, hflat]
    rfl
  · have hw : stream_music_generate [List.replicate 8193 (0 : Nat)]
        = List.replicate 8192 0 := by
      show genLoop false 8192 [List.replicate 8193 0] [] = _
      rw [genLoop, genLoop]
      rw [List.nil_append, List.take_replicate]
      rw [show min 8192 8193 = 8192 from by omega]
      rw [if_neg (by simp), List.append_nil]
    rw [hw, hflat]
    intro hcon
    have hlen := congrArg List.length hcon
    rw [List.length_replicate, List.length_replicate] at hlen
    omega

/-- C3 amended: when the transcoding subprocess exits normally the
constrained (ESP32) generator yields every byte the subprocess produced,
including bytes still buffered at exit; the web generator yields only a
prefix of the produced bytes — it breaks on observing exit without a
final drain, so bytes still buffered at that moment are discarded. -/
theorem generate_drain_amended (prod : List (List Nat)) :
    esp32_stream_generate prod = prod.flatten ∧
      ∃ rest, stream_music_generate prod ++ rest = prod.flatten := by
  constructor
  · show genLoop true 4096 prod [] = prod.flatten
    rw [genLoop_drain]
    rfl
  · obtain ⟨rest, h⟩ := genLoop_nodrain_prefix 8192 prod []
    exact ⟨rest, by simpa using h⟩

/-! ## Cobalt fallback ordering (C4) -/

/-- C4: given the per-instance responses in iteration order, if instance
`k` is the first whose response is accepted (status 200 with a
redirect-style URL field, a direct URL field, or an audio field), the
fallback returns exactly instance `k`'s URL and contacts exactly the
first `k+1` instances; responses that time out, fail to connect, return a
non-200 status or an unrecognized shape are skipped in order, and if
every instance fails the fallback returns failure after contacting all of
them. -/
theorem cobalt_fallback_ordering (resps : List CobaltResp) :
    (∀ (k : Nat) (hk : k < resps.length) (u : String),
        (∀ (j : Nat) (hj : j < resps.length), j < k →
          cobaltAccept (resps.get ⟨j, hj⟩) = none) →
        cobaltAccept (resps.get ⟨k, hk⟩) = some u →
        get_audio_stream_from_cobalt_fallback resps = (some u, k + 1)) ∧
      ((∀ r ∈ resps, cobaltAccept r = none) →
        get_audio_stream_from_cobalt_fallback resps = (none, resps.length)) := by
  induction resps with
  | nil =>
    constructor
    · intro k hk u _ _
      exact absurd hk (by simp)
    · intro _
      rfl
  | cons r rest ih =>
    constructor
    · intro k hk u hbefore hsucc
      cases k with
      | zero =>
        have h0 : cobaltAccept r = some u := hsucc
        simp only [get_audio_stream_from_cobalt_fallback, h0]
      | succ k' =>
        have h0 : cobaltAccept r = none := hbefore 0 (by simp) (Nat.succ_pos k')
        have hk' : k' < rest.length := by simpa using hk
        have hsucc' : cobaltAccept (rest.get ⟨k', hk'⟩) = some u := by
          rw [← List.get_cons_succ (a := r) (h := hk)]
          exact hsucc
        have hbefore' : ∀ (j : Nat) (hj : j < rest.length), j < k' →
            cobaltAccept (rest.get ⟨j, hj⟩) = none := by
          intro j hj hjk
          have hj1 : j + 1 < (r :: rest).length := by simpa using Nat.succ_lt_succ hj
          have := hbefore (j + 1) hj1 (Nat.succ_lt_succ hjk)
          rwa [List.get_cons_succ] at this
        have hrec := ih.1 k' hk' u hbefore' hsucc'
        simp only [get_audio_stream_from_cobalt_fallback, h0, hrec]
    · intro hall
      have h0 : cobaltAccept r = none := hall r (by simp)
      have hrec := ih.2 fun x hx => hall x (by simp [hx])
      simp only [get_audio_stream_from_cobalt_fallback, h0, hrec, List.length_cons]

theorem cobalt_fallback_ordering_witness :
    ((∀ (j : Nat) (hj : j < ([CobaltResp.timeout,
          CobaltResp.ok 200 ⟨some "redirect", some "http://audio", none⟩,
          CobaltResp.exc] : List CobaltResp).length), j < 1 →
        cobaltAccept (([CobaltResp.timeout,
          CobaltResp.ok 200 ⟨some "redirect", some "http://audio", none⟩,
          CobaltResp.exc] : List CobaltResp).get ⟨j, hj⟩) = none) ∧
      cobaltAccept (([CobaltResp.timeout,
          CobaltResp.ok 200 ⟨some "redirect", some "http://audio", none⟩,
          CobaltResp.exc] : List CobaltResp).get ⟨1, by decide⟩) = some "http://audio") ∧
      get_audio_stream_from_cobalt_fallback
          [CobaltResp.timeout,
            CobaltResp.ok 200 ⟨some "redirect", some "http://audio", none⟩,
            CobaltResp.exc]
        = (some "http://audio", 2) :=
  ⟨⟨by decide, by decide⟩,
    (cobalt_fallback_ordering [CobaltResp.timeout,
        CobaltResp.ok 200 ⟨some "redirect", some "http://audio", none⟩,
        CobaltResp.exc]).1 1 (by decide) "http://audio" (by decide) (by decide)⟩

/-! ## Resolver song/video passes (C5) -/

/-- C5 counterexample: with a non-empty song result list whose first
result lacks a `videoId`, the source still falls through to the video
pass and returns the video link — refuting "the video-class search is
attempted only when no song result exists" and "if the song-class search
yields at least one result, the resolver returns a link synthesized from
the first song result's identifier". -/
theorem search_song_first_counterexample :
    ([(⟨none, some "Song Title"⟩ : SearchResult)] : List SearchResult) ≠ [] ∧
      (⟨none, some "Song Title"⟩ : SearchResult).videoId = none ∧
      search_with_ytmusic
          ⟨true, [⟨none, some "Song Title"⟩], [⟨some "abc", some "Video Title"⟩]⟩
        = some "https://www.youtube.com/watch?v=abc" ∧
      first_result_link [(⟨none, some "Song Title"⟩ : SearchResult)] = none ∧
      first_result_link [(⟨some "abc", some "Video Title"⟩ : SearchResult)]
        = some "https://www.youtube.com/watch?v=abc" := by
  refine ⟨by decide, rfl, ?_, rfl, ?_⟩ <;> decide

/-- C5 amended: when the API is initialised, the resolver returns a link
synthesized from the first song result's identifier whenever that
identifier is present and non-empty; the video-class search decides the
outcome whenever the song pass yields no usable identifier (no song
result, or a first song result whose identifier is missing or empty) —
not only when no song result exists; and when neither pass's first
result has a usable identifier the resolver returns failure. -/
theorem search_song_first_amended (env : YtEnv) (h : env.ytmusicOK = true) :
    (∀ r rest vid, env.songs = r :: rest → r.videoId = some vid → vid ≠ "" →
        search_with_ytmusic env = some (ytWatchLink vid)) ∧
      (first_result_link env.songs = none →
        search_with_ytmusic env = first_result_link env.videos) ∧
      (first_result_link env.songs = none → first_result_link env.videos = none →
        search_with_ytmusic env = none) := by
  have hON : (!env.ytmusicOK) = false := by rw [h]; rfl
  refine ⟨?_, ?_, ?_⟩
  · intro r rest vid hs hv hne
    have hfl : first_result_link env.songs = some (ytWatchLink vid) := by
      rw [hs, first_result_link, hv]
      show (if (vid == "") = true then none else some (ytWatchLink vid))
          = some (ytWatchLink vid)
      rw [if_neg (by simp [hne])]
    simp only [search_with_ytmusic, hON, Bool.false_eq_true, if_false, hfl]
  · intro hnone
    simp only [search_with_ytmusic, hON, Bool.false_eq_true, if_false, hnone]
    cases first_result_link env.videos <;> rfl
  · intro h1 h2
    simp only [search_with_ytmusic, hON, Bool.false_eq_true, if_false, h1, h2]

theorem search_song_first_amended_witness :
    (YtEnv.mk true [⟨some "xyz", some "Song Title"⟩] []).ytmusicOK = true ∧
      ((∀ r rest vid,
          (YtEnv.mk true [⟨some "xyz", some "Song Title"⟩] []).songs = r :: rest →
          r.videoId = some vid → vid ≠ "" →
          search_with_ytmusic (YtEnv.mk true [⟨some "xyz", some "Song Title"⟩] [])
            = some (ytWatchLink vid)) ∧
        (first_result_link (YtEnv.mk true [⟨some "xyz", some "Song Title"⟩] []).songs
            = none →
          search_with_ytmusic (YtEnv.mk true [⟨some "xyz", some "Song Title"⟩] [])
            = first_result_link
                (YtEnv.mk true [⟨some "xyz", some "Song Title"⟩] []).videos) ∧
        (first_result_link (YtEnv.mk true [⟨some "xyz", some "Song Title"⟩] []).songs
            = none →
          first_result_link (YtEnv.mk true [⟨some "xyz", some "Song Title"⟩] []).videos
            = none →
          search_with_ytmusic (YtEnv.mk true [⟨some "xyz", some "Song Title"⟩] [])
            = none)) :=
  ⟨rfl, search_song_first_amended (YtEnv.mk true [⟨some "xyz", some "Song Title"⟩] []) rfl⟩

/-! ## Query composition (C6) -/

/-- C6: on the song+singer endpoints, for the (stripped) `song` and
`singer` parameters: when `singer` is non-empty and differs
case-insensitively from "youtube", the effective query is
`"{song} {singer}"`; otherwise it is `song` alone. -/
theorem compose_query_rule (song singer : String) :
    (singer ≠ "" → pyLower singer ≠ "youtube" →
        composeQuery song singer = song ++ " " ++ singer) ∧
      ((singer = "" ∨ pyLower singer = "youtube") → composeQuery song singer = song) := by
  constructor
  · intro h1 h2
    rw [composeQuery, if_pos ⟨h1, h2⟩]
  · intro h
    rw [composeQuery, if_neg]
    rintro ⟨h1, h2⟩
    rcases h with h | h
    · exact h1 h
    · exact h2 h

theorem compose_query_rule_witness :
    (("Ed Sheeran" : String) ≠ "" ∧ pyLower "Ed Sheeran" ≠ "youtube" ∧
        composeQuery "Shape of You" "Ed Sheeran" = "Shape of You Ed Sheeran") ∧
      (pyLower "YouTube" = "youtube" ∧
        composeQuery "Shape of You" "YouTube" = "Shape of You") :=
  ⟨⟨by decide, by decide,
      (compose_query_rule "Shape of You" "Ed Sheeran").1 (by decide) (by decide)⟩,
    ⟨by decide, (compose_query_rule "Shape of You" "YouTube").2 (Or.inr (by decide))⟩⟩

/-! ## stream_pcm failure body (C7) and metadata mismatch (C10) -/

/-- C7: for the request `/stream_pcm?song=Shape+of+You&singer=Ed+Sheeran`,
whenever resolution fails the response is a 404 whose JSON body has
error "Không tìm thấy bài hát: Shape of You Ed Sheeran", title
"Shape of You", artist "Ed Sheeran", and empty audio_url and lyric_url. -/
theorem stream_pcm_not_found (resolve : String → Option String)
    (videoInfo : String → Option (String × String)) (quote : String → String)
    (host : String) (h : resolve "Shape of You Ed Sheeran" = none) :
    stream_pcm "Shape of You" "Ed Sheeran" resolve videoInfo quote host =
      .err ⟨"Không tìm thấy bài hát: Shape of You Ed Sheeran", "Ed Sheeran",
        "Shape of You", "", ""⟩ 404 := by
  have hs : pyStrip "Shape of You" = "Shape of You" := by decide
  have hg : pyStrip "Ed Sheeran" = "Ed Sheeran" := by decide
  have hq : composeQuery "Shape of You" "Ed Sheeran" = "Shape of You Ed Sheeran" := by
    decide
  simp only [stream_pcm, hs, hg, hq, h]
  decide

theorem stream_pcm_not_found_witness :
    ((fun _ : String => (none : Option String)) "Shape of You Ed Sheeran" = none) ∧
      stream_pcm "Shape of You" "Ed Sheeran" (fun _ => none) (fun _ => none)
          (fun s => s) "h"
        = .err ⟨"Không tìm thấy bài hát: Shape of You Ed Sheeran", "Ed Sheeran",
            "Shape of You", "", ""⟩ 404 :=
  ⟨rfl, stream_pcm_not_found _ _ _ _ rfl⟩

/-- C10: every successful `stream_pcm` response reports the constants
bitrate 128, sample rate 44100, channels 2 regardless of input, while the
`esp32_stream` transcoder (which the reported `audio_url` points to) is
invoked with `-ar 24000` and `-b:a 80k`; the reported sample rate and
bitrate never match the constrained profile actually used (44100 ≠ 24000
and 128 ≠ 80). -/
theorem stream_pcm_metadata_mismatch (song singer : String)
    (resolve : String → Option String) (videoInfo : String → Option (String × String))
    (quote : String → String) (host : String) (body : PcmOkBody)
    (h : stream_pcm song singer resolve videoInfo quote host = PcmResp.ok body) :
    body.bitrate = 128 ∧ body.sample_rate = 44100 ∧ body.channels = 2 ∧
      (∀ url, ∃ l1 l2, esp32_ffmpeg_cmd url = l1 ++ "-ar" :: "24000" :: l2) ∧
      (∀ url, ∃ l3 l4, esp32_ffmpeg_cmd url = l3 ++ "-b:a" :: "80k" :: l4) ∧
      body.sample_rate ≠ 24000 ∧ body.bitrate ≠ 80 := by
  have hb : body.bitrate = 128 ∧ body.sample_rate = 44100 ∧ body.channels = 2 := by
    simp only [stream_pcm] at h
    split at h
    · exact absurd h (by simp)
    · split at h
      · exact absurd h (by simp)
      · injection h with h'
        rw [← h']
        exact ⟨rfl, rfl, rfl⟩
  refine ⟨hb.1, hb.2.1, hb.2.2, ?_, ?_, by omega, by omega⟩
  · intro url
    exact ⟨["ffmpeg", "-reconnect", "1", "-reconnect_streamed", "1",
      "-reconnect_delay_max", "5", "-i", url, "-f", "mp3", "-acodec", "libmp3lame"],
      ["-ac", "2", "-b:a", "80k", "-q:a", "7", "-bufsize", "160k", "-fflags",
        "+discardcorrupt", "-max_muxing_queue_size", "640", "-vn", "-"], rfl⟩
  · intro url
    exact ⟨["ffmpeg", "-reconnect", "1", "-reconnect_streamed", "1",
      "-reconnect_delay_max", "5", "-i", url, "-f", "mp3", "-acodec", "libmp3lame",
      "-ar", "24000", "-ac", "2"],
      ["-q:a", "7", "-bufsize", "160k", "-fflags", "+discardcorrupt",
        "-max_muxing_queue_size", "640", "-vn", "-"], rfl⟩

theorem stream_pcm_metadata_mismatch_witness :
    stream_pcm "a" "b" (fun _ => some "http://u") (fun _ => some ("T", "A"))
        (fun s => s) "h"
      = PcmResp.ok ⟨"A", "T", "http://h/esp32_stream?song=a&singer=b", "", "",
          128, 44100, 2⟩ ∧
      ((⟨"A", "T", "http://h/esp32_stream?song=a&singer=b", "", "",
          128, 44100, 2⟩ : PcmOkBody).bitrate = 128 ∧
        (⟨"A", "T", "http://h/esp32_stream?song=a&singer=b", "", "",
          128, 44100, 2⟩ : PcmOkBody).sample_rate = 44100 ∧
        (⟨"A", "T", "http://h/esp32_stream?song=a&singer=b", "", "",
          128, 44100, 2⟩ : PcmOkBody).channels = 2 ∧
        (∀ url, ∃ l1 l2, esp32_ffmpeg_cmd url = l1 ++ "-ar" :: "24000" :: l2) ∧
        (∀ url, ∃ l3 l4, esp32_ffmpeg_cmd url = l3 ++ "-b:a" :: "80k" :: l4) ∧
        (⟨"A", "T", "http://h/esp32_stream?song=a&singer=b", "", "",
          128, 44100, 2⟩ : PcmOkBody).sample_rate ≠ 24000 ∧
        (⟨"A", "T", "http://h/esp32_stream?song=a&singer=b", "", "",
          128, 44100, 2⟩ : PcmOkBody).bitrate ≠ 80) :=
  ⟨by decide, stream_pcm_metadata_mismatch "a" "b" (fun _ => some "http://u")
    (fun _ => some ("T", "A")) (fun s => s) "h" _ (by decide)⟩

end DashboardMusic
